import Mathlib

/-!
Verification of the pq-guestbook submission pipeline (src/main.go)

Shallow embedding of the Go server's admission pipeline: canonical payload
construction, replay guard, token-bucket rate limiter, ML-DSA verification
dispatch (the CIRCL primitives themselves are abstracted as oracle
parameters, since they live outside this repository), and the message
ledger. Strings are modelled as `List Char`, byte strings as `List Nat`
(with values < 256 where it matters), Go `int64` timestamps as `Int`,
`float64` token counts as `ℚ` (exact for the constants 8, 0.25 and 1 used
by the code in the ranges it reaches), and `time.Time` instants as `ℚ`
seconds.
-/

/-- Go `unicode.IsSpace` restricted to the Latin-1 range, which is the set
relevant to the whitespace the pipeline trims: space, tab, newline,
vertical tab, form feed, carriage return, NEL and NBSP. (Higher Unicode
White_Space code points behave the same way and are omitted.) -/
def goIsSpace (c : Char) : Bool :=
  c = ' ' || c = '\t' || c = '\n' || c = Char.ofNat 11 || c = Char.ofNat 12 ||
  c = '\r' || c = Char.ofNat 0x85 || c = Char.ofNat 0xA0

/-- Go `strings.TrimSpace`: drop whitespace from both ends (src/main.go
lines 171-172 apply it to author and content). -/
def trimSpace (l : List Char) : List Char :=
  ((l.dropWhile goIsSpace).reverse.dropWhile goIsSpace).reverse

/-- Function `canonicalPayload` (src/main.go lines 52-55):
`fmt.Sprintf("%s\n%s\n%d", author, content, ts)`. -/
def canonicalPayload (author content : List Char) (ts : Int) : List Char :=
  author ++ '\n' :: (content ++ '\n' :: (toString ts).data)

/-- One hex digit of Go's `encoding/hex` table `"0123456789abcdef"`. -/
def hexDigit : Nat → Char
  | 0 => '0' | 1 => '1' | 2 => '2' | 3 => '3'
  | 4 => '4' | 5 => '5' | 6 => '6' | 7 => '7'
  | 8 => '8' | 9 => '9' | 10 => 'a' | 11 => 'b'
  | 12 => 'c' | 13 => 'd' | 14 => 'e' | 15 => 'f'
  | _ => '0'

/-- Go `hex.EncodeToString`: each byte becomes its high then low nibble in
lowercase hex (used by `replaySeen` at line 62 to key the `seen` map). -/
def hexEncodeBytes (bytes : List Nat) : List Char :=
  bytes.flatMap (fun b => [hexDigit (b / 16), hexDigit (b % 16)])

/-- Association-list lookup, modelling Go map read `m[k]`. -/
def lookupA {α β : Type} [DecidableEq α] : List (α × β) → α → Option β
  | [], _ => none
  | (k, v) :: rest, k' => if k' = k then some v else lookupA rest k'

/-- Association-list update, modelling Go map write `m[k] = v`: replaces
the first binding of `k`, or prepends when absent. -/
def setA {α β : Type} [DecidableEq α] : List (α × β) → α → β → List (α × β)
  | [], k, v => [(k, v)]
  | (k0, v0) :: rest, k, v =>
      if k = k0 then (k, v) :: rest else (k0, v0) :: setA rest k v

/-- The replay guard's shared map `seen : map[string]map[int64]bool`
(line 39), modelled as hex-encoded key ↦ list of recorded timestamps. -/
def ReplayState : Type := List (List Char × List Int)

instance : DecidableEq ReplayState := by
  unfold ReplayState; infer_instance

/-- Timestamps recorded for a given hex-encoded key (`seen[key]`). -/
def recordedTs (seen : ReplayState) (key : List Char) : List Int :=
  (lookupA seen key).getD []

/-- Function `replaySeen` (src/main.go lines 57-72). The whole body runs under
`replayMu`, so it is one atomic state transformation: ensure the inner map
for the hex key exists, report `true` if the timestamp is present,
otherwise record it and report `false`. -/
def replaySeen (seen : ReplayState) (pubkey : List Nat) (ts : Int) :
    Bool × ReplayState :=
  let key := hexEncodeBytes pubkey
  let seen1 : ReplayState :=
    match lookupA seen key with
    | none => (key, []) :: seen
    | some _ => seen
  let tss := recordedTs seen1 key
  if ts ∈ tss then (true, seen1)
  else (false, setA seen1 key (ts :: tss))

/-- Structure `rateInfo` (src/main.go lines 44-47): token count and last-refill
instant for one device identifier. -/
structure RateInfo where
  tokens : ℚ
  lastRefill : ℚ
deriving DecidableEq

/-- The rate limiter's shared table `rateLimits` (line 41). -/
def RateTable : Type := List (List Char × RateInfo)

instance : DecidableEq RateTable := by
  unfold RateTable; infer_instance

/-- Constant `maxTokens = 8` (line 82). -/
def maxTokens : ℚ := 8

/-- Constant `refillRate = 0.25` tokens per second (line 83). -/
def refillRate : ℚ := 1 / 4

/-- Function `allowDevice` (src/main.go lines 86-110), with `now` passed in for the
call the code makes to `time.Now()`. A missing bucket is created at full
capacity and the request allowed without consuming a token; otherwise
tokens are refilled by elapsed time, capped at `maxTokens`, and one token
is consumed when at least one is available. -/
def allowDevice (tbl : RateTable) (id : List Char) (now : ℚ) :
    Bool × RateTable :=
  match lookupA tbl id with
  | none => (true, (id, ⟨maxTokens, now⟩) :: tbl)
  | some ri =>
      let elapsed := now - ri.lastRefill
      let tokens := min maxTokens (ri.tokens + elapsed * refillRate)
      if tokens < 1 then (false, setA tbl id ⟨tokens, now⟩)
      else (true, setA tbl id ⟨tokens - 1, now⟩)

/-- Iterated `allowDevice`: `n` successive calls for one identifier at one instant,
returning the list of outcomes oldest-first and the final table. -/
def runCalls (tbl : RateTable) (id : List Char) (now : ℚ) : Nat → List Bool × RateTable
  | 0 => ([], tbl)
  | n + 1 =>
      let prev := runCalls tbl id now n
      let step := allowDevice prev.2 id now
      (prev.1 ++ [step.1], step.2)

/-- The parsed `Message` JSON body (src/main.go lines 23-33). -/
structure Message where
  author : List Char
  content : List Char
  ts : Int
  algo : List Char
  sig : List Char
  pubkey : List Char
  browser : List Char
  platform : List Char
  userAgent : List Char
deriving DecidableEq

/-- The process-wide shared state (src/main.go lines 35-42): the message
ledger, the replay guard's `seen` map and the rate limiter's table. -/
structure ServerState where
  messages : List Message
  seen : ReplayState
  rate : RateTable
deriving DecidableEq

/-- One ML-DSA strength level of the CIRCL library, abstracted: `parse`
is `PublicKey.UnmarshalBinary` succeeding, `verify` is
`Verify(pub, payload, nil, sig)`. These primitives live outside this
repository, so they are oracle parameters of the embedding. -/
structure SigScheme where
  parse : List Nat → Bool
  verify : List Nat → List Char → List Nat → Bool

/-- The pipeline's external collaborators: base64 `RawStdEncoding`
decoding, the two `time.Now()` reads (UnixMilli at line 196 and the one
inside `allowDevice`), the HMAC-based `deviceIDFromUA`, and the three
ML-DSA schemes. -/
structure Env where
  b64decode : List Char → Option (List Nat)
  nowMs : Int
  nowSec : ℚ
  deviceID : List Char → List Char
  sch44 : SigScheme
  sch65 : SigScheme
  sch87 : SigScheme

/-- Size `mldsa44.PublicKeySize` (FIPS 204). -/
def mldsa44PublicKeySize : Nat := 1312
/-- Size `mldsa65.PublicKeySize` (FIPS 204). -/
def mldsa65PublicKeySize : Nat := 1952
/-- Size `mldsa87.PublicKeySize` (FIPS 204). -/
def mldsa87PublicKeySize : Nat := 2592

/-- Constant `maxAuthorLen` (line 143). -/
def maxAuthorLen : Nat := 80
/-- Constant `maxContentLen` (line 144). -/
def maxContentLen : Nat := 2000
/-- The 5000-byte cap applied to decoded keys and signatures (lines
185, 190). -/
def maxKeyBytes : Nat := 5000

/-- The distinct rejection/acceptance outcomes of the `/api/post`
handler, one per `http.Error` site plus acceptance (§7 taxonomy). -/
inductive Outcome where
  | invalidInput | tooLong | invalidPubkey | invalidSig
  | staleTimestamp | replayDetected | quotaExceeded
  | unsupportedKeySize | malformedKey | signatureInvalid
  | accepted
deriving DecidableEq

/-- The pipeline's gates, in the order named by §4.6 of the spec. -/
inductive Gate where
  | structural | sizes | fresh | replay | rate | verify | ledger
deriving DecidableEq

/-- The order in which src/main.go actually evaluates the gates. -/
def gateOrder : List Gate :=
  [.structural, .sizes, .fresh, .replay, .rate, .verify, .ledger]

/-- Gates entered by a run that reaches verification dispatch but not the
ledger. -/
def gatesThroughVerify : List Gate :=
  [.structural, .sizes, .fresh, .replay, .rate, .verify]

/-- Result of one pipeline run: the outcome, the shared state afterwards,
the list of gates entered in order, the number of ML-DSA primitive
invocations (`UnmarshalBinary` or `Verify`), and the payload `Verify` was
invoked on, when it was. -/
structure PipeResult where
  outcome : Outcome
  state : ServerState
  trace : List Gate
  cryptoCalls : Nat
  verifiedPayload : Option (List Char)
deriving DecidableEq

/-- The message as stored by line 258: the decoded body with author and
content replaced by their trimmed forms (lines 171-172 mutate `m`). -/
def storedMsg (m : Message) : Message :=
  { m with author := trimSpace m.author, content := trimSpace m.content }

/-- Shared part of the three `switch` arms (lines 222-244): parse the key,
verify the signature over the canonical payload, and on success prepend
the message to the ledger (lines 256-259). -/
def finishVerify (sch : SigScheme) (st2 : ServerState) (m : Message)
    (pubBytes sigBytes : List Nat) (canonical : List Char) : PipeResult :=
  if sch.parse pubBytes = false then
    ⟨.malformedKey, st2, gatesThroughVerify, 1, none⟩
  else if sch.verify pubBytes canonical sigBytes = false then
    ⟨.signatureInvalid, st2, gatesThroughVerify, 2, some canonical⟩
  else
    ⟨.accepted, { st2 with messages := storedMsg m :: st2.messages },
      gateOrder, 2, some canonical⟩

/-- The `switch len(pubBytes)` dispatch (lines 220-249): scheme selection
purely by key length, `unsupported ML-DSA level` otherwise. -/
def verifyStage (env : Env) (st2 : ServerState) (m : Message)
    (pubBytes sigBytes : List Nat) (canonical : List Char) : PipeResult :=
  if pubBytes.length = mldsa44PublicKeySize then
    finishVerify env.sch44 st2 m pubBytes sigBytes canonical
  else if pubBytes.length = mldsa65PublicKeySize then
    finishVerify env.sch65 st2 m pubBytes sigBytes canonical
  else if pubBytes.length = mldsa87PublicKeySize then
    finishVerify env.sch87 st2 m pubBytes sigBytes canonical
  else
    ⟨.unsupportedKeySize, st2, gatesThroughVerify, 0, none⟩

/-- The `/api/post` handler body after JSON decoding (src/main.go lines
160-263): trim and structurally validate, decode and size-bound the key
and signature, check freshness, check-and-record replay, consume the rate
limit, then dispatch ML-DSA verification over the canonical payload and
append to the ledger on success. -/
def pipeline (env : Env) (st : ServerState) (m : Message) : PipeResult :=
  if trimSpace m.author = [] ∨ trimSpace m.content = [] then
    ⟨.invalidInput, st, [.structural], 0, none⟩
  else if maxAuthorLen < (trimSpace m.author).length ∨
      maxContentLen < (trimSpace m.content).length then
    ⟨.tooLong, st, [.structural], 0, none⟩
  else
    match env.b64decode m.pubkey with
    | none => ⟨.invalidPubkey, st, [.structural, .sizes], 0, none⟩
    | some pubBytes =>
      if maxKeyBytes < pubBytes.length then
        ⟨.invalidPubkey, st, [.structural, .sizes], 0, none⟩
      else
        match env.b64decode m.sig with
        | none => ⟨.invalidSig, st, [.structural, .sizes], 0, none⟩
        | some sigBytes =>
          if maxKeyBytes < sigBytes.length then
            ⟨.invalidSig, st, [.structural, .sizes], 0, none⟩
          else
            if env.nowMs - m.ts < -15000 ∨ 15000 < env.nowMs - m.ts then
              ⟨.staleTimestamp, st, [.structural, .sizes, .fresh], 0, none⟩
            else
              if (replaySeen st.seen pubBytes m.ts).1 = true then
                ⟨.replayDetected,
                  { st with seen := (replaySeen st.seen pubBytes m.ts).2 },
                  [.structural, .sizes, .fresh, .replay], 0, none⟩
              else
                if (allowDevice st.rate (env.deviceID m.userAgent)
                    env.nowSec).1 = false then
                  ⟨.quotaExceeded,
                    { messages := st.messages,
                      seen := (replaySeen st.seen pubBytes m.ts).2,
                      rate := (allowDevice st.rate (env.deviceID m.userAgent)
                        env.nowSec).2 },
                    [.structural, .sizes, .fresh, .replay, .rate], 0, none⟩
                else
                  verifyStage env
                    { messages := st.messages,
                      seen := (replaySeen st.seen pubBytes m.ts).2,
                      rate := (allowDevice st.rate (env.deviceID m.userAgent)
                        env.nowSec).2 }
                    m pubBytes sigBytes
                    (canonicalPayload (trimSpace m.author)
                      (trimSpace m.content) m.ts)

/-- The `/api/messages` handler (lines 130-139): the ledger is returned
as stored, newest-first. -/
def listAll (st : ServerState) : List Message := st.messages

theorem lookupA_setA {α β : Type} [DecidableEq α]
    (l : List (α × β)) (k k' : α) (v : β) :
    lookupA (setA l k v) k' = if k' = k then some v else lookupA l k' := by
  induction l with
  | nil => simp [setA, lookupA]
  | cons hd tl ih =>
    obtain ⟨k0, v0⟩ := hd
    by_cases hk : k = k0
    · subst hk
      by_cases h : k' = k <;> simp [setA, lookupA, h]
    · by_cases h : k' = k0 <;> by_cases h2 : k' = k <;>
        simp_all [setA, lookupA]

theorem hexDigit_inj (a b : Nat) (ha : a < 16) (hb : b < 16)
    (h : hexDigit a = hexDigit b) : a = b := by
  have key : ∀ x y : Fin 16, hexDigit x.val = hexDigit y.val → x = y := by decide
  exact congrArg Fin.val (key ⟨a, ha⟩ ⟨b, hb⟩ h)

theorem hexEncodeBytes_inj : ∀ (k1 k2 : List Nat),
    (∀ b ∈ k1, b < 256) → (∀ b ∈ k2, b < 256) →
    hexEncodeBytes k1 = hexEncodeBytes k2 → k1 = k2 := by
  intro k1
  induction k1 with
  | nil =>
    intro k2 _ _ h
    cases k2 with
    | nil => rfl
    | cons b tl => simp [hexEncodeBytes] at h
  | cons b1 tl1 ih =>
    intro k2 h1 h2 h
    cases k2 with
    | nil => simp [hexEncodeBytes] at h
    | cons b2 tl2 =>
      simp only [hexEncodeBytes, List.flatMap_cons, List.cons_append,
        List.nil_append, List.cons.injEq] at h
      obtain ⟨hhi, hlo, hrest⟩ := h
      have hb1 : b1 < 256 := h1 b1 (by simp)
      have hb2 : b2 < 256 := h2 b2 (by simp)
      have e1 : b1 / 16 = b2 / 16 :=
        hexDigit_inj _ _ (by omega) (by omega) hhi
      have e2 : b1 % 16 = b2 % 16 :=
        hexDigit_inj _ _ (by omega) (by omega) hlo
      have : b1 = b2 := by omega
      subst this
      have : tl1 = tl2 :=
        ih tl2 (fun b hb => h1 b (by simp [hb]))
          (fun b hb => h2 b (by simp [hb])) hrest
      simp [this]

/-- Claim C4: `canonicalPayload` is NOT injective on (author, content) pairs:
the newline separator is itself extractable from the fields, so
author `"a\nb"` with content `"c"` collides with author `"a"` with
content `"b\nc"` (both survive trimming unchanged, so the pipeline really
signs these bytes); the spec's own sample pair `"ab"/"c"` vs `"a"/"bc"`
does canonicalize differently. -/
theorem c4_canonical_collision :
    canonicalPayload ['a', '\n', 'b'] ['c'] 5 =
      canonicalPayload ['a'] ['b', '\n', 'c'] 5 ∧
    (['a', '\n', 'b'], ['c']) ≠ (['a'], ['b', '\n', 'c']) ∧
    trimSpace ['a', '\n', 'b'] = ['a', '\n', 'b'] ∧
    trimSpace ['b', '\n', 'c'] = ['b', '\n', 'c'] ∧
    canonicalPayload ['a', 'b'] ['c'] 5 ≠ canonicalPayload ['a'] ['b', 'c'] 5 := by
  refine ⟨by decide, by decide, by decide, by decide, by decide⟩

theorem replaySeen_spec (s : ReplayState) (k : List Nat) (ts : Int) :
    replaySeen s k ts =
      if ts ∈ recordedTs s (hexEncodeBytes k) then (true, s)
      else
        (false, setA
          (match lookupA s (hexEncodeBytes k) with
            | none => ((hexEncodeBytes k, []) :: s : ReplayState)
            | some _ => s)
          (hexEncodeBytes k) (ts :: recordedTs s (hexEncodeBytes k))) := by
  unfold replaySeen
  cases hl : lookupA s (hexEncodeBytes k) with
  | none =>
    have hrec : recordedTs s (hexEncodeBytes k) = [] := by
      simp [recordedTs, hl]
    have hrec1 : recordedTs ((hexEncodeBytes k, []) :: s) (hexEncodeBytes k) = [] := by
      simp [recordedTs, lookupA]
    simp only [hl, hrec, hrec1]
    simp
  | some l =>
    have hrec : recordedTs s (hexEncodeBytes k) = l := by
      simp [recordedTs, hl]
    simp only [hl, hrec]

/-- Claim C7: the replay guard reports a replay exactly when the (key,
timestamp) pair is already recorded, leaves the state unchanged in that
case, records exactly the new pair otherwise, and keys identity
byte-exactly (the hex encoding of the key bytes is injective). -/
theorem c7_replay_guard (s : ReplayState) (k1 k2 : List Nat) (ts : Int)
    (h1 : ∀ b ∈ k1, b < 256) (h2 : ∀ b ∈ k2, b < 256) :
    ((replaySeen s k1 ts).1 = true ↔ ts ∈ recordedTs s (hexEncodeBytes k1)) ∧
    ((replaySeen s k1 ts).1 = true → (replaySeen s k1 ts).2 = s) ∧
    ((replaySeen s k1 ts).1 = false → ∀ key,
      recordedTs (replaySeen s k1 ts).2 key =
        if key = hexEncodeBytes k1 then ts :: recordedTs s key
        else recordedTs s key) ∧
    (hexEncodeBytes k1 = hexEncodeBytes k2 ↔ k1 = k2) := by
  rw [replaySeen_spec]
  by_cases hm : ts ∈ recordedTs s (hexEncodeBytes k1)
  · refine ⟨by simp [hm], by simp [hm], by simp [hm], ?_⟩
    exact ⟨hexEncodeBytes_inj k1 k2 h1 h2, fun h => by rw [h]⟩
  · refine ⟨by simp [hm], by simp [hm], ?_, ?_⟩
    · intro _ key
      simp only [if_neg hm]
      cases hl : lookupA s (hexEncodeBytes k1) with
      | none =>
        simp only [hl, recordedTs, lookupA_setA]
        by_cases hk : key = hexEncodeBytes k1
        · simp [hk, hl]
        · simp [hk, lookupA]
      | some l =>
        simp only [hl, recordedTs, lookupA_setA]
        by_cases hk : key = hexEncodeBytes k1
        · simp [hk, hl]
        · simp [hk]
    · exact ⟨hexEncodeBytes_inj k1 k2 h1 h2, fun h => by rw [h]⟩

/-- Witness for C7 at a concrete state and pair of keys. -/
theorem c7_replay_guard_witness :
    hexEncodeBytes [0] = hexEncodeBytes [1] ↔ ([0] : List Nat) = [1] :=
  (c7_replay_guard [] [0] [1] 7 (by decide) (by decide)).2.2.2

theorem allowDevice_fresh (tbl : RateTable) (id : List Char) (now : ℚ)
    (h : lookupA tbl id = none) :
    allowDevice tbl id now = (true, (id, ⟨maxTokens, now⟩) :: tbl) := by
  simp [allowDevice, h]

theorem allowDevice_head_ok (tbl : RateTable) (id : List Char) (x t : ℚ)
    (h1 : 1 ≤ x) (h2 : x ≤ maxTokens) :
    allowDevice ((id, ⟨x, t⟩) :: tbl) id t = (true, (id, ⟨x - 1, t⟩) :: tbl) := by
  have hmin : min maxTokens x = x := min_eq_right h2
  simp [allowDevice, lookupA, setA, hmin, not_lt.mpr h1]

theorem allowDevice_head_fail (tbl : RateTable) (id : List Char) (x t : ℚ)
    (h1 : x < 1) :
    allowDevice ((id, ⟨x, t⟩) :: tbl) id t = (false, (id, ⟨x, t⟩) :: tbl) := by
  have hx : x ≤ maxTokens := by
    have : (1 : ℚ) ≤ maxTokens := by norm_num [maxTokens]
    linarith
  have hmin : min maxTokens x = x := min_eq_right hx
  simp [allowDevice, lookupA, setA, hmin, h1]

theorem runCalls_succ (tbl : RateTable) (id : List Char) (t : ℚ) (n : Nat) :
    runCalls tbl id t (n + 1) =
      ((runCalls tbl id t n).1 ++ [(allowDevice (runCalls tbl id t n).2 id t).1],
       (allowDevice (runCalls tbl id t n).2 id t).2) := by
  simp [runCalls]

theorem runCalls9 (tbl : RateTable) (id : List Char) (t : ℚ)
    (hfresh : lookupA tbl id = none) :
    runCalls tbl id t 9 = (List.replicate 9 true, (id, ⟨0, t⟩) :: tbl) := by
  have s0 : runCalls tbl id t 0 = ([], tbl) := rfl
  have s1 : runCalls tbl id t 1 = ([true], (id, ⟨8, t⟩) :: tbl) := by
    rw [runCalls_succ, s0, allowDevice_fresh tbl id t hfresh]
    norm_num [maxTokens]
  have s2 : runCalls tbl id t 2 = ([true, true], (id, ⟨7, t⟩) :: tbl) := by
    rw [runCalls_succ, s1,
      allowDevice_head_ok tbl id 8 t (by norm_num) (by norm_num [maxTokens])]
    norm_num
  have s3 : runCalls tbl id t 3 = ([true, true, true], (id, ⟨6, t⟩) :: tbl) := by
    rw [runCalls_succ, s2,
      allowDevice_head_ok tbl id 7 t (by norm_num) (by norm_num [maxTokens])]
    norm_num
  have s4 : runCalls tbl id t 4 = ([true, true, true, true], (id, ⟨5, t⟩) :: tbl) := by
    rw [runCalls_succ, s3,
      allowDevice_head_ok tbl id 6 t (by norm_num) (by norm_num [maxTokens])]
    norm_num
  have s5 : runCalls tbl id t 5 = ([true, true, true, true, true], (id, ⟨4, t⟩) :: tbl) := by
    rw [runCalls_succ, s4,
      allowDevice_head_ok tbl id 5 t (by norm_num) (by norm_num [maxTokens])]
    norm_num
  have s6 : runCalls tbl id t 6 = ([true, true, true, true, true, true], (id, ⟨3, t⟩) :: tbl) := by
    rw [runCalls_succ, s5,
      allowDevice_head_ok tbl id 4 t (by norm_num) (by norm_num [maxTokens])]
    norm_num
  have s7 : runCalls tbl id t 7 = ([true, true, true, true, true, true, true], (id, ⟨2, t⟩) :: tbl) := by
    rw [runCalls_succ, s6,
      allowDevice_head_ok tbl id 3 t (by norm_num) (by norm_num [maxTokens])]
    norm_num
  have s8 : runCalls tbl id t 8 = ([true, true, true, true, true, true, true, true], (id, ⟨1, t⟩) :: tbl) := by
    rw [runCalls_succ, s7,
      allowDevice_head_ok tbl id 2 t (by norm_num) (by norm_num [maxTokens])]
    norm_num
  rw [runCalls_succ, s8,
    allowDevice_head_ok tbl id 1 t (by norm_num) (by norm_num [maxTokens])]
  norm_num
  decide

theorem lookupA_head {α β : Type} [DecidableEq α] (tbl : List (α × β))
    (k : α) (v : β) : lookupA ((k, v) :: tbl) k = some v := by
  simp [lookupA]

theorem allowDevice_head_gen (tbl : RateTable) (id : List Char) (x t now : ℚ) :
    allowDevice ((id, ⟨x, t⟩) :: tbl) id now =
      if min maxTokens (x + (now - t) * refillRate) < 1 then
        (false, (id, ⟨min maxTokens (x + (now - t) * refillRate), now⟩) :: tbl)
      else
        (true, (id, ⟨min maxTokens (x + (now - t) * refillRate) - 1, now⟩) :: tbl) := by
  simp only [allowDevice, lookupA_head]
  by_cases h : min maxTokens (x + (now - t) * refillRate) < 1 <;>
    simp [h, setA]

/-- Claim C3 (amended): a fresh identifier's first request creates its
bucket at full burst capacity and is allowed without consuming a token,
so nine immediate requests (not eight) all succeed; the tenth is rejected
with its token count left unconsumed at 0; after 4 seconds (one token
refilled at 0.25 tokens/second) exactly one more request succeeds. -/
theorem c3_token_bucket (tbl : RateTable) (id : List Char) (t : ℚ)
    (hfresh : lookupA tbl id = none) :
    (runCalls tbl id t 9).1 = List.replicate 9 true ∧
    (allowDevice (runCalls tbl id t 9).2 id t).1 = false ∧
    lookupA (allowDevice (runCalls tbl id t 9).2 id t).2 id =
      some ⟨0, t⟩ ∧
    (allowDevice (allowDevice (runCalls tbl id t 9).2 id t).2 id
      (t + 4)).1 = true ∧
    (allowDevice (allowDevice (allowDevice (runCalls tbl id t 9).2 id t).2
      id (t + 4)).2 id (t + 4)).1 = false := by
  have h9 := runCalls9 tbl id t hfresh
  have hfail10 : allowDevice ((id, ⟨0, t⟩) :: tbl) id t =
      (false, (id, ⟨0, t⟩) :: tbl) :=
    allowDevice_head_fail tbl id 0 t (by norm_num)
  have hstep : (0 : ℚ) + (t + 4 - t) * refillRate = 1 := by
    rw [refillRate]; ring
  have hmin1 : min maxTokens (1 : ℚ) = 1 := by
    rw [maxTokens]; norm_num [min_def]
  have hA : allowDevice ((id, ⟨0, t⟩) :: tbl) id (t + 4) =
      (true, (id, ⟨0, t + 4⟩) :: tbl) := by
    rw [allowDevice_head_gen, hstep, hmin1]
    norm_num
  have hB : allowDevice ((id, ⟨0, t + 4⟩) :: tbl) id (t + 4) =
      (false, (id, ⟨0, t + 4⟩) :: tbl) :=
    allowDevice_head_fail tbl id 0 (t + 4) (by norm_num)
  rw [h9]
  refine ⟨rfl, ?_, ?_, ?_, ?_⟩
  · rw [hfail10]
  · rw [hfail10]; simp [lookupA]
  · rw [hfail10, hA]
  · rw [hfail10, hA, hB]

/-- Counterexample to C3 as stated: for the fresh identifier `"d"` the
ninth immediate request also succeeds (all nine come back `true`), so the
request immediately following the burst-capacity-many (8) requests is NOT
rejected. -/
theorem c3_counterexample :
    (runCalls [] ['d'] 0 9).1 = List.replicate 9 true ∧
    (runCalls [] ['d'] 0 9).1 ≠ List.replicate 8 true ++ [false] := by
  have h := runCalls9 [] ['d'] 0 rfl
  rw [h]
  exact ⟨rfl, by decide⟩

/-- Witness for C3 at the concrete fresh identifier `"d"`. -/
theorem c3_token_bucket_witness :
    (allowDevice (runCalls [] ['d'] 0 9).2 ['d'] 0).1 = false :=
  (c3_token_bucket [] ['d'] 0 rfl).2.1

/-- Scheme selection by decoded key length, as the `switch` does. -/
def schemeOf (env : Env) (n : Nat) : Option SigScheme :=
  if n = mldsa44PublicKeySize then some env.sch44
  else if n = mldsa65PublicKeySize then some env.sch65
  else if n = mldsa87PublicKeySize then some env.sch87
  else none

theorem replaySeen_replay_state (s : ReplayState) (k : List Nat) (ts : Int)
    (h : (replaySeen s k ts).1 = true) : (replaySeen s k ts).2 = s := by
  rw [replaySeen_spec] at h ⊢
  by_cases hm : ts ∈ recordedTs s (hexEncodeBytes k)
  · rw [if_pos hm]
  · rw [if_neg hm] at h
    simp at h

/-- Exhaustive enumeration of the pipeline's possible results, one
disjunct per exit point of the handler, carrying the conditions under
which each exit is taken. -/
theorem pipeline_cases (env : Env) (st : ServerState) (m : Message) :
    ((trimSpace m.author = [] ∨ trimSpace m.content = []) ∧
      pipeline env st m = ⟨.invalidInput, st, [.structural], 0, none⟩) ∨
    ((maxAuthorLen < (trimSpace m.author).length ∨
        maxContentLen < (trimSpace m.content).length) ∧
      pipeline env st m = ⟨.tooLong, st, [.structural], 0, none⟩) ∨
    (pipeline env st m = ⟨.invalidPubkey, st, [.structural, .sizes], 0, none⟩) ∨
    (pipeline env st m = ⟨.invalidSig, st, [.structural, .sizes], 0, none⟩) ∨
    ((env.nowMs - m.ts < -15000 ∨ 15000 < env.nowMs - m.ts) ∧
      pipeline env st m =
        ⟨.staleTimestamp, st, [.structural, .sizes, .fresh], 0, none⟩) ∨
    (¬ (env.nowMs - m.ts < -15000 ∨ 15000 < env.nowMs - m.ts) ∧
      ∃ pubBytes, env.b64decode m.pubkey = some pubBytes ∧
        (replaySeen st.seen pubBytes m.ts).1 = true ∧
        pipeline env st m =
          ⟨.replayDetected, st, [.structural, .sizes, .fresh, .replay], 0, none⟩) ∨
    (¬ (env.nowMs - m.ts < -15000 ∨ 15000 < env.nowMs - m.ts) ∧
      ∃ pubBytes, env.b64decode m.pubkey = some pubBytes ∧
        (replaySeen st.seen pubBytes m.ts).1 = false ∧
        (allowDevice st.rate (env.deviceID m.userAgent) env.nowSec).1 = false ∧
        pipeline env st m =
          ⟨.quotaExceeded,
            { messages := st.messages,
              seen := (replaySeen st.seen pubBytes m.ts).2,
              rate := (allowDevice st.rate (env.deviceID m.userAgent) env.nowSec).2 },
            [.structural, .sizes, .fresh, .replay, .rate], 0, none⟩) ∨
    (¬ (env.nowMs - m.ts < -15000 ∨ 15000 < env.nowMs - m.ts) ∧
      ∃ pubBytes sigBytes, env.b64decode m.pubkey = some pubBytes ∧
        env.b64decode m.sig = some sigBytes ∧
        schemeOf env pubBytes.length = none ∧
        pipeline env st m =
          ⟨.unsupportedKeySize,
            { messages := st.messages,
              seen := (replaySeen st.seen pubBytes m.ts).2,
              rate := (allowDevice st.rate (env.deviceID m.userAgent) env.nowSec).2 },
            gatesThroughVerify, 0, none⟩) ∨
    (¬ (env.nowMs - m.ts < -15000 ∨ 15000 < env.nowMs - m.ts) ∧
      ∃ pubBytes sigBytes sch, env.b64decode m.pubkey = some pubBytes ∧
        env.b64decode m.sig = some sigBytes ∧
        schemeOf env pubBytes.length = some sch ∧
        sch.parse pubBytes = false ∧
        pipeline env st m =
          ⟨.malformedKey,
            { messages := st.messages,
              seen := (replaySeen st.seen pubBytes m.ts).2,
              rate := (allowDevice st.rate (env.deviceID m.userAgent) env.nowSec).2 },
            gatesThroughVerify, 1, none⟩) ∨
    (¬ (env.nowMs - m.ts < -15000 ∨ 15000 < env.nowMs - m.ts) ∧
      ∃ pubBytes sigBytes sch, env.b64decode m.pubkey = some pubBytes ∧
        env.b64decode m.sig = some sigBytes ∧
        schemeOf env pubBytes.length = some sch ∧
        sch.parse pubBytes = true ∧
        sch.verify pubBytes
          (canonicalPayload (trimSpace m.author) (trimSpace m.content) m.ts)
          sigBytes = false ∧
        pipeline env st m =
          ⟨.signatureInvalid,
            { messages := st.messages,
              seen := (replaySeen st.seen pubBytes m.ts).2,
              rate := (allowDevice st.rate (env.deviceID m.userAgent) env.nowSec).2 },
            gatesThroughVerify, 2,
            some (canonicalPayload (trimSpace m.author) (trimSpace m.content) m.ts)⟩) ∨
    (¬ (env.nowMs - m.ts < -15000 ∨ 15000 < env.nowMs - m.ts) ∧
      ∃ pubBytes sigBytes sch, env.b64decode m.pubkey = some pubBytes ∧
        env.b64decode m.sig = some sigBytes ∧
        schemeOf env pubBytes.length = some sch ∧
        sch.parse pubBytes = true ∧
        sch.verify pubBytes
          (canonicalPayload (trimSpace m.author) (trimSpace m.content) m.ts)
          sigBytes = true ∧
        pipeline env st m =
          ⟨.accepted,
            { messages := storedMsg m :: st.messages,
              seen := (replaySeen st.seen pubBytes m.ts).2,
              rate := (allowDevice st.rate (env.deviceID m.userAgent) env.nowSec).2 },
            gateOrder, 2,
            some (canonicalPayload (trimSpace m.author) (trimSpace m.content) m.ts)⟩) := by
  by_cases h1 : trimSpace m.author = [] ∨ trimSpace m.content = []
  · exact Or.inl ⟨h1, by rw [pipeline, if_pos h1]⟩
  · by_cases h2 : maxAuthorLen < (trimSpace m.author).length ∨
        maxContentLen < (trimSpace m.content).length
    · exact Or.inr (Or.inl ⟨h2, by rw [pipeline, if_neg h1, if_pos h2]⟩)
    · have hp : pipeline env st m =
          (match env.b64decode m.pubkey with
          | none => ⟨.invalidPubkey, st, [.structural, .sizes], 0, none⟩
          | some pubBytes =>
            if maxKeyBytes < pubBytes.length then
              ⟨.invalidPubkey, st, [.structural, .sizes], 0, none⟩
            else
              match env.b64decode m.sig with
              | none => ⟨.invalidSig, st, [.structural, .sizes], 0, none⟩
              | some sigBytes =>
                if maxKeyBytes < sigBytes.length then
                  ⟨.invalidSig, st, [.structural, .sizes], 0, none⟩
                else
                  if env.nowMs - m.ts < -15000 ∨ 15000 < env.nowMs - m.ts then
                    ⟨.staleTimestamp, st, [.structural, .sizes, .fresh], 0, none⟩
                  else
                    if (replaySeen st.seen pubBytes m.ts).1 = true then
                      ⟨.replayDetected,
                        { st with seen := (replaySeen st.seen pubBytes m.ts).2 },
                        [.structural, .sizes, .fresh, .replay], 0, none⟩
                    else
                      if (allowDevice st.rate (env.deviceID m.userAgent)
                          env.nowSec).1 = false then
                        ⟨.quotaExceeded,
                          { messages := st.messages,
                            seen := (replaySeen st.seen pubBytes m.ts).2,
                            rate := (allowDevice st.rate (env.deviceID m.userAgent)
                              env.nowSec).2 },
                          [.structural, .sizes, .fresh, .replay, .rate], 0, none⟩
                      else
                        verifyStage env
                          { messages := st.messages,
                            seen := (replaySeen st.seen pubBytes m.ts).2,
                            rate := (allowDevice st.rate (env.deviceID m.userAgent)
                              env.nowSec).2 }
                          m pubBytes sigBytes
                          (canonicalPayload (trimSpace m.author)
                            (trimSpace m.content) m.ts) : PipeResult) := by
        rw [pipeline, if_neg h1, if_neg h2]
      rw [hp]
      cases hpk : env.b64decode m.pubkey with
      | none => exact Or.inr (Or.inr (Or.inl rfl))
      | some pubBytes =>
        dsimp only
        by_cases h3 : maxKeyBytes < pubBytes.length
        · exact Or.inr (Or.inr (Or.inl (by rw [if_pos h3])))
        · rw [if_neg h3]
          cases hsg : env.b64decode m.sig with
          | none => exact Or.inr (Or.inr (Or.inr (Or.inl rfl)))
          | some sigBytes =>
            dsimp only
            by_cases h4 : maxKeyBytes < sigBytes.length
            · exact Or.inr (Or.inr (Or.inr (Or.inl (by rw [if_pos h4]))))
            · rw [if_neg h4]
              by_cases h5 : env.nowMs - m.ts < -15000 ∨ 15000 < env.nowMs - m.ts
              · exact Or.inr (Or.inr (Or.inr (Or.inr (Or.inl
                  ⟨h5, by rw [if_pos h5]⟩))))
              · rw [if_neg h5]
                by_cases h6 : (replaySeen st.seen pubBytes m.ts).1 = true
                · refine Or.inr (Or.inr (Or.inr (Or.inr (Or.inr (Or.inl
                    ⟨h5, pubBytes, rfl, h6, ?_⟩)))))
                  rw [if_pos h6, replaySeen_replay_state _ _ _ h6]
                · have h6f : (replaySeen st.seen pubBytes m.ts).1 = false :=
                    Bool.eq_false_iff.mpr (fun hc => h6 hc)
                  rw [if_neg h6]
                  by_cases h7 : (allowDevice st.rate (env.deviceID m.userAgent)
                      env.nowSec).1 = false
                  · exact Or.inr (Or.inr (Or.inr (Or.inr (Or.inr (Or.inr (Or.inl
                      ⟨h5, pubBytes, rfl, h6f, h7, by rw [if_pos h7]⟩))))))
                  · rw [if_neg h7, verifyStage]
                    by_cases h8 : pubBytes.length = mldsa44PublicKeySize
                    · rw [if_pos h8, finishVerify]
                      by_cases h9 : env.sch44.parse pubBytes = false
                      · refine Or.inr (Or.inr (Or.inr (Or.inr (Or.inr (Or.inr
                          (Or.inr (Or.inr (Or.inl
                          ⟨h5, pubBytes, sigBytes, env.sch44, rfl, rfl, ?_, h9,
                            by rw [if_pos h9]⟩))))))))
                        simp [schemeOf, h8, mldsa44PublicKeySize, mldsa65PublicKeySize, mldsa87PublicKeySize]
                      · have h9t : env.sch44.parse pubBytes = true :=
                          Bool.eq_false_iff.not_left.mp (fun hc => h9 (by simpa using hc))
                        rw [if_neg h9]
                        by_cases h10 : env.sch44.verify pubBytes
                            (canonicalPayload (trimSpace m.author)
                              (trimSpace m.content) m.ts) sigBytes = false
                        · refine Or.inr (Or.inr (Or.inr (Or.inr (Or.inr (Or.inr
                            (Or.inr (Or.inr (Or.inr (Or.inl
                            ⟨h5, pubBytes, sigBytes, env.sch44, rfl, rfl, ?_, h9t, h10,
                              by rw [if_pos h10]⟩)))))))))
                          simp [schemeOf, h8, mldsa44PublicKeySize, mldsa65PublicKeySize, mldsa87PublicKeySize]
                        · have h10t : env.sch44.verify pubBytes
                              (canonicalPayload (trimSpace m.author)
                                (trimSpace m.content) m.ts) sigBytes = true :=
                            Bool.eq_false_iff.not_left.mp (fun hc => h10 (by simpa using hc))
                          refine Or.inr (Or.inr (Or.inr (Or.inr (Or.inr (Or.inr
                            (Or.inr (Or.inr (Or.inr (Or.inr
                            ⟨h5, pubBytes, sigBytes, env.sch44, rfl, rfl, ?_, h9t, h10t,
                              by rw [if_neg h10]⟩)))))))))
                          simp [schemeOf, h8, mldsa44PublicKeySize, mldsa65PublicKeySize, mldsa87PublicKeySize]
                    · rw [if_neg h8]
                      by_cases h8b : pubBytes.length = mldsa65PublicKeySize
                      · rw [if_pos h8b, finishVerify]
                        by_cases h9 : env.sch65.parse pubBytes = false
                        · refine Or.inr (Or.inr (Or.inr (Or.inr (Or.inr (Or.inr
                            (Or.inr (Or.inr (Or.inl
                            ⟨h5, pubBytes, sigBytes, env.sch65, rfl, rfl, ?_, h9,
                              by rw [if_pos h9]⟩))))))))
                          simp [schemeOf, h8, h8b, mldsa44PublicKeySize, mldsa65PublicKeySize, mldsa87PublicKeySize]
                        · have h9t : env.sch65.parse pubBytes = true :=
                            Bool.eq_false_iff.not_left.mp (fun hc => h9 (by simpa using hc))
                          rw [if_neg h9]
                          by_cases h10 : env.sch65.verify pubBytes
                              (canonicalPayload (trimSpace m.author)
                                (trimSpace m.content) m.ts) sigBytes = false
                          · refine Or.inr (Or.inr (Or.inr (Or.inr (Or.inr (Or.inr
                              (Or.inr (Or.inr (Or.inr (Or.inl
                              ⟨h5, pubBytes, sigBytes, env.sch65, rfl, rfl, ?_, h9t, h10,
                                by rw [if_pos h10]⟩)))))))))
                            simp [schemeOf, h8, h8b, mldsa44PublicKeySize, mldsa65PublicKeySize, mldsa87PublicKeySize]
                          · have h10t : env.sch65.verify pubBytes
                                (canonicalPayload (trimSpace m.author)
                                  (trimSpace m.content) m.ts) sigBytes = true :=
                              Bool.eq_false_iff.not_left.mp (fun hc => h10 (by simpa using hc))
                            refine Or.inr (Or.inr (Or.inr (Or.inr (Or.inr (Or.inr
                              (Or.inr (Or.inr (Or.inr (Or.inr
                              ⟨h5, pubBytes, sigBytes, env.sch65, rfl, rfl, ?_, h9t, h10t,
                                by rw [if_neg h10]⟩)))))))))
                            simp [schemeOf, h8, h8b, mldsa44PublicKeySize, mldsa65PublicKeySize, mldsa87PublicKeySize]
                      · rw [if_neg h8b]
                        by_cases h8c : pubBytes.length = mldsa87PublicKeySize
                        · rw [if_pos h8c, finishVerify]
                          by_cases h9 : env.sch87.parse pubBytes = false
                          · refine Or.inr (Or.inr (Or.inr (Or.inr (Or.inr (Or.inr
                              (Or.inr (Or.inr (Or.inl
                              ⟨h5, pubBytes, sigBytes, env.sch87, rfl, rfl, ?_, h9,
                                by rw [if_pos h9]⟩))))))))
                            simp [schemeOf, h8, h8b, h8c, mldsa44PublicKeySize, mldsa65PublicKeySize, mldsa87PublicKeySize]
                          · have h9t : env.sch87.parse pubBytes = true :=
                              Bool.eq_false_iff.not_left.mp (fun hc => h9 (by simpa using hc))
                            rw [if_neg h9]
                            by_cases h10 : env.sch87.verify pubBytes
                                (canonicalPayload (trimSpace m.author)
                                  (trimSpace m.content) m.ts) sigBytes = false
                            · refine Or.inr (Or.inr (Or.inr (Or.inr (Or.inr (Or.inr
                                (Or.inr (Or.inr (Or.inr (Or.inl
                                ⟨h5, pubBytes, sigBytes, env.sch87, rfl, rfl, ?_, h9t, h10,
                                  by rw [if_pos h10]⟩)))))))))
                              simp [schemeOf, h8, h8b, h8c, mldsa44PublicKeySize, mldsa65PublicKeySize, mldsa87PublicKeySize]
                            · have h10t : env.sch87.verify pubBytes
                                  (canonicalPayload (trimSpace m.author)
                                    (trimSpace m.content) m.ts) sigBytes = true :=
                                Bool.eq_false_iff.not_left.mp (fun hc => h10 (by simpa using hc))
                              refine Or.inr (Or.inr (Or.inr (Or.inr (Or.inr (Or.inr
                                (Or.inr (Or.inr (Or.inr (Or.inr
                                ⟨h5, pubBytes, sigBytes, env.sch87, rfl, rfl, ?_, h9t, h10t,
                                  by rw [if_neg h10]⟩)))))))))
                              simp [schemeOf, h8, h8b, h8c, mldsa44PublicKeySize, mldsa65PublicKeySize, mldsa87PublicKeySize]
                        · refine Or.inr (Or.inr (Or.inr (Or.inr (Or.inr (Or.inr
                            (Or.inr (Or.inl
                            ⟨h5, pubBytes, sigBytes, rfl, rfl, ?_, by rw [if_neg h8c]⟩)))))))
                          simp [schemeOf, h8, h8b, h8c]

theorem trimSpace_length_le (l : List Char) : (trimSpace l).length ≤ l.length := by
  unfold trimSpace
  rw [List.length_reverse]
  calc ((l.dropWhile goIsSpace).reverse.dropWhile goIsSpace).length
      ≤ (l.dropWhile goIsSpace).reverse.length :=
        ((List.dropWhile_suffix _).sublist).length_le
    _ = (l.dropWhile goIsSpace).length := List.length_reverse _
    _ ≤ l.length := ((List.dropWhile_suffix _).sublist).length_le

theorem trimSpace_ne_imp_length_lt (l : List Char) (h : trimSpace l ≠ l) :
    (trimSpace l).length < l.length := by
  rcases lt_or_eq_of_le (trimSpace_length_le l) with hlt | heq
  · exact hlt
  · exfalso
    apply h
    have a1 : ((l.dropWhile goIsSpace).reverse.dropWhile goIsSpace).length ≤
        (l.dropWhile goIsSpace).reverse.length :=
      ((List.dropWhile_suffix _).sublist).length_le
    have a2 : (l.dropWhile goIsSpace).length ≤ l.length :=
      ((List.dropWhile_suffix _).sublist).length_le
    have hlen : (trimSpace l).length =
        ((l.dropWhile goIsSpace).reverse.dropWhile goIsSpace).length := by
      unfold trimSpace
      rw [List.length_reverse]
    rw [List.length_reverse] at a1
    have e1 : ((l.dropWhile goIsSpace).reverse.dropWhile goIsSpace).length =
        (l.dropWhile goIsSpace).reverse.length := by
      rw [List.length_reverse]
      omega
    have e2 : (l.dropWhile goIsSpace).length = l.length := by omega
    have d2 : (l.dropWhile goIsSpace).reverse.dropWhile goIsSpace =
        (l.dropWhile goIsSpace).reverse :=
      ((List.dropWhile_suffix _).sublist).eq_of_length e1
    have d1 : l.dropWhile goIsSpace = l :=
      ((List.dropWhile_suffix _).sublist).eq_of_length e2
    unfold trimSpace
    rw [d2, List.reverse_reverse, d1]

theorem canonicalPayload_length (a c : List Char) (ts : Int) :
    (canonicalPayload a c ts).length =
      a.length + c.length + (toString ts).data.length + 2 := by
  simp [canonicalPayload]
  omega

theorem canonicalPayload_trim_ne (a c : List Char) (ts : Int)
    (h : trimSpace a ≠ a ∨ trimSpace c ≠ c) :
    canonicalPayload (trimSpace a) (trimSpace c) ts ≠
      canonicalPayload a c ts := by
  intro he
  have hlen := congrArg List.length he
  rw [canonicalPayload_length, canonicalPayload_length] at hlen
  have la := trimSpace_length_le a
  have lc := trimSpace_length_le c
  rcases h with h | h
  · have := trimSpace_ne_imp_length_lt a h
    omega
  · have := trimSpace_ne_imp_length_lt c h
    omega

theorem schemeOf_mem (env : Env) (n : Nat) (sch : SigScheme)
    (h : schemeOf env n = some sch) :
    sch = env.sch44 ∨ sch = env.sch65 ∨ sch = env.sch87 := by
  unfold schemeOf at h
  by_cases h1 : n = mldsa44PublicKeySize
  · rw [if_pos h1] at h
    exact Or.inl (Option.some.inj h).symm
  · rw [if_neg h1] at h
    by_cases h2 : n = mldsa65PublicKeySize
    · rw [if_pos h2] at h
      exact Or.inr (Or.inl (Option.some.inj h).symm)
    · rw [if_neg h2] at h
      by_cases h3 : n = mldsa87PublicKeySize
      · rw [if_pos h3] at h
        exact Or.inr (Or.inr (Option.some.inj h).symm)
      · rw [if_neg h3] at h
        exact absurd h (by simp)

/-- Claim C8: every accepted submission is prepended to the ledger (the
stored message, with trimmed author/content); every rejected submission
leaves the ledger untouched; the previous contents always survive as a
suffix, unmodified; and the listing endpoint returns the ledger in its
stored newest-first order. -/
theorem c8_ledger (env : Env) (st : ServerState) (m : Message) :
    ((pipeline env st m).state.messages =
      if (pipeline env st m).outcome = Outcome.accepted
        then storedMsg m :: st.messages else st.messages) ∧
    (∃ pre, (pipeline env st m).state.messages = pre ++ st.messages) ∧
    listAll (pipeline env st m).state = (pipeline env st m).state.messages := by
  have hmsg : (pipeline env st m).state.messages =
      (if (pipeline env st m).outcome = Outcome.accepted
        then storedMsg m :: st.messages else st.messages) := by
    rcases pipeline_cases env st m with ⟨h, he⟩ | ⟨h, he⟩ | he | he | ⟨h, he⟩ |
      ⟨h5, pb, hpk, hrep, he⟩ | ⟨h5, pb, hpk, hrep, hrl, he⟩ |
      ⟨h5, pb, sb, hpk, hsg, hsch, he⟩ | ⟨h5, pb, sb, sch, hpk, hsg, hsch, hpar, he⟩ |
      ⟨h5, pb, sb, sch, hpk, hsg, hsch, hpar, hver, he⟩ |
      ⟨h5, pb, sb, sch, hpk, hsg, hsch, hpar, hver, he⟩ <;> rw [he] <;> simp
  refine ⟨hmsg, ?_, rfl⟩
  by_cases h : (pipeline env st m).outcome = Outcome.accepted
  · exact ⟨[storedMsg m], by rw [hmsg, if_pos h]; rfl⟩
  · exact ⟨[], by rw [hmsg, if_neg h]; rfl⟩

/-- Claim C1 (amended): the pipeline evaluates its gates in the fixed
order structural → size bounds → freshness → replay → rate limit →
signature verification → ledger, short-circuiting at the first failure
(the trace is always an initial segment of that order, and is the whole
order exactly on acceptance); the replay check precedes signature
verification, so every submission that reaches verification has already
gone through the replay check. -/
theorem c1_gate_order (env : Env) (st : ServerState) (m : Message) :
    ((pipeline env st m).trace =
      gateOrder.take (pipeline env st m).trace.length) ∧
    ((pipeline env st m).outcome = Outcome.accepted ↔
      (pipeline env st m).trace = gateOrder) ∧
    (Gate.verify ∈ (pipeline env st m).trace →
      Gate.replay ∈ (pipeline env st m).trace) := by
  rcases pipeline_cases env st m with ⟨h, he⟩ | ⟨h, he⟩ | he | he | ⟨h, he⟩ |
    ⟨h5, pb, hpk, hrep, he⟩ | ⟨h5, pb, hpk, hrep, hrl, he⟩ |
    ⟨h5, pb, sb, hpk, hsg, hsch, he⟩ | ⟨h5, pb, sb, sch, hpk, hsg, hsch, hpar, he⟩ |
    ⟨h5, pb, sb, sch, hpk, hsg, hsch, hpar, hver, he⟩ |
    ⟨h5, pb, sb, sch, hpk, hsg, hsch, hpar, hver, he⟩ <;> rw [he] <;>
    dsimp only <;> exact ⟨by decide, by decide, by decide⟩

/-- A message used by the concrete runs below: author `"a"`, content
`"b"`, timestamp 0, all other fields empty. -/
def mEx : Message := ⟨['a'], ['b'], 0, [], [], [], [], [], []⟩

/-- The empty server state. -/
def stEx : ServerState := ⟨[], [], []⟩

/-- A scheme whose keys always parse and whose signatures never verify. -/
def schNo : SigScheme := ⟨fun _ => true, fun _ _ _ => false⟩

/-- Environment in which every base64 field decodes to an ML-DSA-44-sized
byte string, clocks read 0, and no signature ever verifies. -/
def envNo : Env :=
  ⟨fun _ => some (List.replicate mldsa44PublicKeySize 0), 0, 0,
    fun _ => ['x'], schNo, schNo, schNo⟩

/-- Counterexample to C1 as stated: a submission whose signature does not
verify (outcome `signatureInvalid`) nevertheless went through the replay
check — replay is evaluated before signature verification, not after. -/
theorem pipeline_envNo :
    pipeline envNo stEx mEx =
      ⟨Outcome.signatureInvalid,
        { messages := [],
          seen := (replaySeen stEx.seen
            (List.replicate mldsa44PublicKeySize 0) 0).2,
          rate := (allowDevice stEx.rate (envNo.deviceID mEx.userAgent)
            envNo.nowSec).2 },
        gatesThroughVerify, 2,
        some (canonicalPayload ['a'] ['b'] 0)⟩ := by
  rw [pipeline]
  rw [if_neg (by decide), if_neg (by decide)]
  have hdec : envNo.b64decode mEx.pubkey =
      some (List.replicate mldsa44PublicKeySize 0) := rfl
  rw [hdec]
  dsimp only
  have hlen : (List.replicate mldsa44PublicKeySize (0 : Nat)).length =
      mldsa44PublicKeySize := List.length_replicate _ _
  have hsz : ¬ maxKeyBytes <
      (List.replicate mldsa44PublicKeySize (0 : Nat)).length := by
    rw [hlen]; decide
  rw [if_neg hsz]
  have hdec2 : envNo.b64decode mEx.sig =
      some (List.replicate mldsa44PublicKeySize 0) := rfl
  rw [hdec2]
  dsimp only
  rw [if_neg hsz, if_neg (by decide)]
  have hrep : (replaySeen stEx.seen (List.replicate mldsa44PublicKeySize 0)
      (mEx.ts)).1 = false := by
    rw [replaySeen_spec]
    have : recordedTs stEx.seen
        (hexEncodeBytes (List.replicate mldsa44PublicKeySize 0)) = [] := rfl
    rw [this]
    simp
  rw [if_neg (by rw [hrep]; simp)]
  have hrl : (allowDevice stEx.rate (envNo.deviceID mEx.userAgent)
      envNo.nowSec).1 = true := by
    rw [allowDevice_fresh stEx.rate (envNo.deviceID mEx.userAgent)
      envNo.nowSec rfl]
  rw [if_neg (by rw [hrl]; simp)]
  rw [verifyStage]
  rw [if_pos hlen]
  rw [finishVerify]
  rw [if_neg (by simp [envNo, schNo])]
  rw [if_pos (by simp [envNo, schNo])]
  rfl

/-- Counterexample to C1 as stated: a submission whose signature does not
verify (outcome `signatureInvalid`) nevertheless went through the replay
check — replay is evaluated before signature verification, not after. -/
theorem c1_counterexample :
    (pipeline envNo stEx mEx).outcome = Outcome.signatureInvalid ∧
    Gate.replay ∈ (pipeline envNo stEx mEx).trace := by
  rw [pipeline_envNo]
  exact ⟨rfl, by decide⟩

theorem setA_ne_nil {α β : Type} [DecidableEq α]
    (l : List (α × β)) (k : α) (v : β) : setA l k v ≠ [] := by
  cases l with
  | nil => simp [setA]
  | cons hd tl =>
    obtain ⟨k0, v0⟩ := hd
    unfold setA
    by_cases h : k = k0 <;> simp [h]

/-- Claim C2 (amended): a submission rejected at or before the replay
check (including a detected replay) leaves the whole shared state exactly
as it was, and the message ledger is mutated only by accepted
submissions; but because the code runs the replay check and the rate
limiter before signature verification, a submission rejected for an
invalid signature has already recorded its (key, timestamp) pair and
consumed a rate-limit token. -/
theorem c2_state_mutation (env : Env) (st : ServerState) (m : Message) :
    ((pipeline env st m).outcome = Outcome.invalidInput ∨
     (pipeline env st m).outcome = Outcome.tooLong ∨
     (pipeline env st m).outcome = Outcome.invalidPubkey ∨
     (pipeline env st m).outcome = Outcome.invalidSig ∨
     (pipeline env st m).outcome = Outcome.staleTimestamp ∨
     (pipeline env st m).outcome = Outcome.replayDetected →
      (pipeline env st m).state = st) ∧
    ((pipeline env st m).outcome ≠ Outcome.accepted →
      (pipeline env st m).state.messages = st.messages) := by
  rcases pipeline_cases env st m with ⟨h, he⟩ | ⟨h, he⟩ | he | he | ⟨h, he⟩ |
    ⟨h5, pb, hpk, hrep, he⟩ | ⟨h5, pb, hpk, hrep, hrl, he⟩ |
    ⟨h5, pb, sb, hpk, hsg, hsch, he⟩ | ⟨h5, pb, sb, sch, hpk, hsg, hsch, hpar, he⟩ |
    ⟨h5, pb, sb, sch, hpk, hsg, hsch, hpar, hver, he⟩ |
    ⟨h5, pb, sb, sch, hpk, hsg, hsch, hpar, hver, he⟩ <;> rw [he] <;> dsimp only <;>
    refine ⟨fun h2 => ?_, fun h3 => ?_⟩ <;>
    first
      | rfl
      | exact absurd h2 (by decide)
      | exact absurd rfl h3

/-- Counterexample to C2 as stated: a submission rejected because its
signature is invalid has nevertheless mutated both the replay guard's
recorded set and the rate-limit bucket table. -/
theorem c2_counterexample :
    (pipeline envNo stEx mEx).outcome = Outcome.signatureInvalid ∧
    recordedTs (pipeline envNo stEx mEx).state.seen
      (hexEncodeBytes (List.replicate mldsa44PublicKeySize 0)) = [0] ∧
    recordedTs stEx.seen
      (hexEncodeBytes (List.replicate mldsa44PublicKeySize 0)) = [] ∧
    (pipeline envNo stEx mEx).state.seen ≠ stEx.seen ∧
    (pipeline envNo stEx mEx).state.rate ≠ stEx.rate := by
  have h0 : recordedTs stEx.seen
      (hexEncodeBytes (List.replicate mldsa44PublicKeySize 0)) = [] := rfl
  have hl : lookupA stEx.seen
      (hexEncodeBytes (List.replicate mldsa44PublicKeySize 0)) = none := rfl
  have h1 : recordedTs (pipeline envNo stEx mEx).state.seen
      (hexEncodeBytes (List.replicate mldsa44PublicKeySize 0)) = [0] := by
    rw [pipeline_envNo]
    dsimp only
    rw [replaySeen_spec, h0]
    rw [if_neg (List.not_mem_nil (0 : Int))]
    dsimp only
    rw [hl]
    unfold recordedTs
    rw [lookupA_setA]
    rw [if_pos rfl]
    rfl
  refine ⟨by rw [pipeline_envNo], h1, h0, ?_, ?_⟩
  · intro hc
    rw [hc, h0] at h1
    exact List.noConfusion h1
  · rw [pipeline_envNo]
    dsimp only
    rw [allowDevice_fresh stEx.rate (envNo.deviceID mEx.userAgent)
      envNo.nowSec rfl]
    exact List.cons_ne_self _ _

/-- Claim C5: a timestamp drifting more than 15000 ms from the verifier
clock in either direction is rejected as stale before the replay and rate
gates run (no shared state mutated), and a timestamp within the window is
never rejected for staleness. -/
theorem c5_freshness (env : Env) (st : ServerState) (m : Message)
    (hreach : Gate.fresh ∈ (pipeline env st m).trace) :
    ((env.nowMs - m.ts < -15000 ∨ 15000 < env.nowMs - m.ts) →
      (pipeline env st m).outcome = Outcome.staleTimestamp ∧
      (pipeline env st m).state = st ∧
      Gate.replay ∉ (pipeline env st m).trace ∧
      Gate.rate ∉ (pipeline env st m).trace) ∧
    (-15000 ≤ env.nowMs - m.ts → env.nowMs - m.ts ≤ 15000 →
      (pipeline env st m).outcome ≠ Outcome.staleTimestamp) := by
  rcases pipeline_cases env st m with ⟨h, he⟩ | ⟨h, he⟩ | he | he | ⟨h, he⟩ |
    ⟨h5, pb, hpk, hrep, he⟩ | ⟨h5, pb, hpk, hrep, hrl, he⟩ |
    ⟨h5, pb, sb, hpk, hsg, hsch, he⟩ | ⟨h5, pb, sb, sch, hpk, hsg, hsch, hpar, he⟩ |
    ⟨h5, pb, sb, sch, hpk, hsg, hsch, hpar, hver, he⟩ |
    ⟨h5, pb, sb, sch, hpk, hsg, hsch, hpar, hver, he⟩ <;>
    rw [he] at hreach ⊢ <;> dsimp only at hreach ⊢ <;>
    first
      | exact absurd hreach (by decide)
      | exact ⟨fun _ => ⟨rfl, rfl, by decide, by decide⟩,
          fun hl hr => by omega⟩
      | exact ⟨fun hd => absurd hd h5, fun _ _ => by decide⟩

/-- Environment whose clock is 20000 ms ahead of the submission and whose
base64 fields decode to the empty byte string. -/
def envStale : Env :=
  ⟨fun _ => some [], 20000, 0, fun _ => [], schNo, schNo, schNo⟩

/-- Witness for C5: a 20-second-old timestamp is rejected as stale with
the state untouched. -/
theorem c5_freshness_witness :
    (pipeline envStale stEx mEx).outcome = Outcome.staleTimestamp ∧
    (pipeline envStale stEx mEx).state = stEx := by
  have h := (c5_freshness envStale stEx mEx (by decide)).1 (by decide)
  exact ⟨h.1, h.2.1⟩

/-- Claim C6: a decoded public key whose length matches none of the three
ML-DSA public-key sizes is rejected as an unsupported key size once it
reaches the verification dispatch, with zero ML-DSA primitive
invocations (no `UnmarshalBinary`, no `Verify`) and no payload ever
passed to a verifier. -/
theorem c6_unsupported_key (env : Env) (st : ServerState) (m : Message)
    (pubBytes : List Nat)
    (hdec : env.b64decode m.pubkey = some pubBytes)
    (h44 : pubBytes.length ≠ mldsa44PublicKeySize)
    (h65 : pubBytes.length ≠ mldsa65PublicKeySize)
    (h87 : pubBytes.length ≠ mldsa87PublicKeySize)
    (hreach : Gate.verify ∈ (pipeline env st m).trace) :
    (pipeline env st m).outcome = Outcome.unsupportedKeySize ∧
    (pipeline env st m).cryptoCalls = 0 ∧
    (pipeline env st m).verifiedPayload = none := by
  rcases pipeline_cases env st m with ⟨h, he⟩ | ⟨h, he⟩ | he | he | ⟨h, he⟩ |
    ⟨h5, pb, hpk, hrep, he⟩ | ⟨h5, pb, hpk, hrep, hrl, he⟩ |
    ⟨h5, pb, sb, hpk, hsg, hsch, he⟩ | ⟨h5, pb, sb, sch, hpk, hsg, hsch, hpar, he⟩ |
    ⟨h5, pb, sb, sch, hpk, hsg, hsch, hpar, hver, he⟩ |
    ⟨h5, pb, sb, sch, hpk, hsg, hsch, hpar, hver, he⟩ <;>
    rw [he] at hreach ⊢ <;> dsimp only at hreach ⊢ <;>
    first
      | exact absurd hreach (by decide)
      | exact ⟨rfl, rfl, rfl⟩
      | (have hpb : pb = pubBytes := Option.some.inj (hpk.symm.trans hdec)
         rw [hpb] at hsch
         unfold schemeOf at hsch
         rw [if_neg h44, if_neg h65, if_neg h87] at hsch
         exact Option.noConfusion hsch)

/-- Environment whose base64 fields decode to a 3-byte string, a key size
supported by no ML-DSA level. -/
def envU : Env :=
  ⟨fun _ => some [0, 0, 0], 0, 0, fun _ => [], schNo, schNo, schNo⟩

/-- Witness for C6 at the concrete 3-byte key. -/
theorem c6_unsupported_key_witness :
    (pipeline envU stEx mEx).outcome = Outcome.unsupportedKeySize ∧
    (pipeline envU stEx mEx).cryptoCalls = 0 ∧
    (pipeline envU stEx mEx).verifiedPayload = none :=
  c6_unsupported_key envU stEx mEx [0, 0, 0] rfl (by decide) (by decide)
    (by decide) (by decide)

/-- Claim C10: the payload the signature is checked against is the
canonical payload of the whitespace-trimmed author and content; the
stored message carries the trimmed values; the length bounds are applied
to the trimmed values; and whenever trimming changes a field the trimmed
canonical payload differs from the untrimmed one, so a signature that
verifies only over the untrimmed text can never lead to acceptance. -/
theorem c10_trimmed_canonical (env : Env) (st : ServerState) (m : Message)
    (htrim : trimSpace m.author ≠ m.author ∨ trimSpace m.content ≠ m.content)
    (horacle : ∀ k p s, (env.sch44.verify k p s = true ∨
        env.sch65.verify k p s = true ∨ env.sch87.verify k p s = true) →
      p = canonicalPayload m.author m.content m.ts) :
    ((pipeline env st m).verifiedPayload = none ∨
      (pipeline env st m).verifiedPayload =
        some (canonicalPayload (trimSpace m.author) (trimSpace m.content) m.ts)) ∧
    ((pipeline env st m).outcome = Outcome.accepted →
      (pipeline env st m).state.messages.head? = some (storedMsg m)) ∧
    ((pipeline env st m).outcome = Outcome.tooLong →
      maxAuthorLen < (trimSpace m.author).length ∨
      maxContentLen < (trimSpace m.content).length) ∧
    canonicalPayload (trimSpace m.author) (trimSpace m.content) m.ts ≠
      canonicalPayload m.author m.content m.ts ∧
    (pipeline env st m).outcome ≠ Outcome.accepted := by
  have hne := canonicalPayload_trim_ne m.author m.content m.ts htrim
  rcases pipeline_cases env st m with ⟨h, he⟩ | ⟨h, he⟩ | he | he | ⟨h, he⟩ |
    ⟨h5, pb, hpk, hrep, he⟩ | ⟨h5, pb, hpk, hrep, hrl, he⟩ |
    ⟨h5, pb, sb, hpk, hsg, hsch, he⟩ |
    ⟨h5, pb, sb, sch, hpk, hsg, hsch, hpar, he⟩ |
    ⟨h5, pb, sb, sch, hpk, hsg, hsch, hpar, hver, he⟩ |
    ⟨h5, pb, sb, sch, hpk, hsg, hsch, hpar, hver, he⟩ <;> rw [he] <;> dsimp only <;>
    first
      | exact ⟨Or.inl rfl, fun hc => absurd hc (by decide),
          fun hc => absurd hc (by decide), hne, by decide⟩
      | exact ⟨Or.inl rfl, fun hc => absurd hc (by decide),
          fun _ => h, hne, by decide⟩
      | exact ⟨Or.inr rfl, fun hc => absurd hc (by decide),
          fun hc => absurd hc (by decide), hne, by decide⟩
      | (rcases schemeOf_mem env pb.length sch hsch with h' | h' | h' <;>
          rw [h'] at hver
         · exact absurd (horacle _ _ _ (Or.inl hver)) hne
         · exact absurd (horacle _ _ _ (Or.inr (Or.inl hver))) hne
         · exact absurd (horacle _ _ _ (Or.inr (Or.inr hver))) hne)

/-- A message whose author carries leading whitespace that trimming
removes. -/
def mW : Message := ⟨[' ', 'a'], ['b'], 0, [], [], [], [], [], []⟩

/-- Witness for C10: with an oracle that only accepts the untrimmed
payload, the submission with a trimmable author is not accepted. -/
theorem c10_trimmed_canonical_witness :
    (pipeline envStale stEx mW).outcome ≠ Outcome.accepted :=
  (c10_trimmed_canonical envStale stEx mW (Or.inl (by decide))
    (fun k p s h => by
      rcases h with h | h | h <;> exact Bool.noConfusion h)).2.2.2.2

/-- State of two concurrent calls of `replaySeen` for one and the same
(key, timestamp) pair, modelled at the granularity of the individual
mutex and map operations the Go code performs: `lock` is the holder of
`replayMu` (`false` = thread A, `true` = thread B), `seenPair` is the
presence bit `seen[key][ts]`, `pcA`/`pcB` are the threads' program
counters (0 acquire, 1 read the bit, 2 record when the read value was
false, 3 release, 4 done), and `regA`/`regB` hold the value each thread
read — the thread's result: reading `false` means the call returns
`false` (accepted), reading `true` means replay. -/
structure RState where
  lock : Option Bool
  seenPair : Bool
  pcA : Nat
  pcB : Nat
  regA : Bool
  regB : Bool
deriving DecidableEq

/-- Initial state: pair not yet recorded, mutex free, both calls at the
acquire step. -/
def initR : RState := ⟨none, false, 0, 0, false, false⟩

/-- One atomic hardware step of thread `t`: acquiring blocks while the
other thread holds `replayMu` (the step is then a no-op), the read and
the conditional record happen inside the critical section exactly as in
`replaySeen` (src/main.go lines 59-71), then the mutex is released. -/
def stepR (s : RState) (t : Bool) : RState :=
  match t with
  | false =>
    match s.pcA with
    | 0 => if s.lock = none then { s with lock := some false, pcA := 1 } else s
    | 1 => { s with regA := s.seenPair, pcA := 2 }
    | 2 => if s.regA then { s with pcA := 3 }
           else { s with seenPair := true, pcA := 3 }
    | 3 => { s with lock := none, pcA := 4 }
    | _ => s
  | true =>
    match s.pcB with
    | 0 => if s.lock = none then { s with lock := some true, pcB := 1 } else s
    | 1 => { s with regB := s.seenPair, pcB := 2 }
    | 2 => if s.regB then { s with pcB := 3 }
           else { s with seenPair := true, pcB := 3 }
    | 3 => { s with lock := none, pcB := 4 }
    | _ => s

/-- Run a schedule: at each instant the named thread takes its next
atomic step. Every interleaving of the two calls is some schedule. -/
def runR (s : RState) : List Bool → RState
  | [] => s
  | t :: rest => runR (stepR s t) rest

/-- Successor states under either thread's step. -/
def succsR (s : RState) : List RState := [stepR s false, stepR s true]

/-- One round of reachability expansion. -/
def expandR (l : List RState) : List RState := (l ++ l.flatMap succsR).dedup

/-- All states reachable from `initR` (12 expansion rounds, more than the
8 steps any execution needs, so the set is step-closed). -/
def reachR : List RState := Nat.iterate expandR 12 [initR]

theorem reachR_init : initR ∈ reachR := by decide

theorem reachR_closed : ∀ s ∈ reachR, ∀ t, stepR s t ∈ reachR := by decide

theorem reachR_safe : ∀ s ∈ reachR, s.pcA = 4 → s.pcB = 4 →
    s.regA ≠ s.regB := by decide

theorem runR_mem (sched : List Bool) :
    ∀ s, s ∈ reachR → runR s sched ∈ reachR := by
  induction sched with
  | nil => intro s hs; exact hs
  | cons t rest ih =>
    intro s hs
    exact ih _ (reachR_closed s hs t)

/-- Claim C9: under every interleaving of two concurrent `replaySeen`
calls carrying the same key and timestamp, once both calls have
completed, exactly one of them read the pair as unrecorded (and is
accepted) while the other read it as recorded (and is rejected as a
replay): the mutex makes the check-then-record sequence mutually
exclusive. -/
theorem c9_concurrent_replay (sched : List Bool)
    (hA : (runR initR sched).pcA = 4) (hB : (runR initR sched).pcB = 4) :
    (runR initR sched).regA ≠ (runR initR sched).regB :=
  reachR_safe (runR initR sched) (runR_mem sched initR reachR_init) hA hB

/-- Witness for C9 on the schedule that runs thread A to completion and
then thread B. -/
theorem c9_concurrent_replay_witness :
    (runR initR [false, false, false, false, true, true, true, true]).regA ≠
      (runR initR [false, false, false, false, true, true, true, true]).regB :=
  c9_concurrent_replay [false, false, false, false, true, true, true, true]
    (by decide) (by decide)
